import Mathlib

/-!
Verification of the `gdrive-cli` locator-resolution and command-outcome layer.

The definitions below are a shallow embedding of the repository's Python
sources (`gdrive_cli/ids.py`, `gdrive_cli/cli.py`, `gdrive_cli/client.py`)
together with the pieces of the Python standard library they rely on
(`str.strip`, `urllib.parse.urlparse`, `urllib.parse.parse_qs`,
`json.loads`, `re` pattern matching for the three fixed Drive-link shapes).
Strings are modelled as Lean `String` (a wrapper around `List Char`),
matching Python's character-sequence semantics.

Modelling boundaries (each noted where it applies): Unicode-aware
`str.lower` is modelled as ASCII lowering; multi-byte UTF-8 percent-decoding
is modelled byte-per-byte (both are observationally identical on the
canonical-ID alphabet checked downstream); Python's repr of nested
containers is approximated; filesystem and network effects are parameters
of an explicit environment.
-/

namespace Gdrive

/-! ## Python character classes and string helpers -/

/-- The whitespace characters removed by Python's `str.strip()`: space, tab,
newline, carriage return, vertical tab, form feed, the file/group/record/
unit separators, next line, no-break space, ogham space mark, the en-quad
to hair-space block, line and paragraph separators, narrow no-break space,
medium mathematical space, and ideographic space (stated on code points). -/
def isPySpace (c : Char) : Bool :=
  c.toNat = 32 || c.toNat = 9 || c.toNat = 10 || c.toNat = 13 || c.toNat = 11 ||
  c.toNat = 12 || (28 ≤ c.toNat && c.toNat ≤ 31) || c.toNat = 133 ||
  c.toNat = 160 || c.toNat = 5760 || (8192 ≤ c.toNat && c.toNat ≤ 8202) ||
  c.toNat = 8232 || c.toNat = 8233 || c.toNat = 8239 || c.toNat = 8287 ||
  c.toNat = 12288

/-- `str.strip()` on a character list. -/
def stripL (l : List Char) : List Char :=
  ((l.dropWhile isPySpace).reverse.dropWhile isPySpace).reverse

/-- `value.strip()` from `_resolve_drive_id`. -/
def pyStrip (s : String) : String := ⟨stripL s.data⟩

/-- Does `l` begin with `pat`? (`str.startswith`, also regex literal matching.) -/
def startsWithL : List Char → List Char → Bool
  | [], _ => true
  | _ :: _, [] => false
  | p :: ps, c :: cs => p == c && startsWithL ps cs

/-- Does `l` end with `pat`? (`str.endswith`.) -/
def endsWithL (pat l : List Char) : Bool :=
  startsWithL pat.reverse l.reverse

/-- Python's `pat in s` substring test. -/
def containsSub (pat : List Char) : List Char → Bool
  | [] => startsWithL pat []
  | c :: rest => startsWithL pat (c :: rest) || containsSub pat rest

/-- Split at the first occurrence of `sep` (`str.split(sep, 1)` when present). -/
def splitFirstL (sep : Char) : List Char → Option (List Char × List Char)
  | [] => none
  | c :: rest =>
    if c = sep then some ([], rest)
    else
      match splitFirstL sep rest with
      | some (x, y) => some (c :: x, y)
      | none => none

/-- `str.split(sep)`: all chunks, possibly empty, in order. -/
def splitSep (sep : Char) : List Char → List (List Char)
  | [] => [[]]
  | c :: rest =>
    let r := splitSep sep rest
    if c = sep then [] :: r
    else
      match r with
      | [] => [[c]]
      | x :: xs => (c :: x) :: xs

/-- Index of the first occurrence of `c` at or after `start` (`str.find(c, start)`). -/
def findIdxFrom (c : Char) (l : List Char) (start : Nat) : Option Nat :=
  ((l.drop start).findIdx? (fun d => d = c)).map (fun i => i + start)

/-- Index of the last occurrence of `c` (`str.rfind(c)`), if any. -/
def rfindIdx (c : Char) (l : List Char) : Option Nat :=
  (l.reverse.findIdx? (fun d => d = c)).map (fun i => l.length - 1 - i)

/-! ## `urllib.parse` -/

/-- Characters a URL scheme may contain after its first letter. -/
def isSchemeChar (c : Char) : Bool :=
  c.isAlpha || c.isDigit || c = '+' || c = '-' || c = '.'

/-- Tab, carriage return and newline are removed from a URL before splitting
(CPython's `_UNSAFE_URL_BYTES_TO_REMOVE`). -/
def unsafeUrlChar (c : Char) : Bool :=
  c.toNat = 9 || c.toNat = 13 || c.toNat = 10

/-- Scheme extraction of `urlsplit`: if the text before the first `:` is a
well-formed scheme (ASCII letter then scheme characters), split it off and
lowercase it; otherwise the scheme is empty and the URL is unchanged. -/
def splitScheme (url : List Char) : List Char × List Char :=
  match splitFirstL ':' url with
  | none => ([], url)
  | some (before, after) =>
    match before with
    | [] => ([], url)
    | c :: cs =>
      if c.isAlpha && cs.all isSchemeChar then ((c :: cs).map Char.toLower, after)
      else ([], url)

/-- A character that terminates the network-location part. -/
def netlocStop (c : Char) : Bool :=
  c = '/' || c = '?' || c = '#'

/-- The five components produced by `urllib.parse.urlsplit`/`urlparse`. -/
structure UrlSplit where
  scheme : List Char
  netloc : List Char
  path : List Char
  query : List Char
  fragment : List Char
deriving DecidableEq

/-- Fragment and query splitting performed after the netloc is removed. -/
def afterNetloc (scheme netloc url : List Char) : UrlSplit :=
  let (url1, fragment) :=
    match splitFirstL '#' url with
    | some (a, b) => (a, b)
    | none => (url, [])
  let (path0, query) :=
    match splitFirstL '?' url1 with
    | some (a, b) => (a, b)
    | none => (url1, [])
  ⟨scheme, netloc, path0, query, fragment⟩

/-- `urllib.parse.urlsplit` (raising `ValueError` on a mismatched IPv6
bracket, as CPython does; the stricter bracketed-host validation of newer
CPython is not modelled). -/
def urlsplitE (l : List Char) : Except String UrlSplit :=
  let url := l.filter (fun c => !unsafeUrlChar c)
  let (scheme, url1) := splitScheme url
  match url1 with
  | '/' :: '/' :: rest =>
    let netloc := rest.takeWhile (fun c => !netlocStop c)
    let url2 := rest.dropWhile (fun c => !netlocStop c)
    if (netloc.contains '[' && !netloc.contains ']') ||
        (netloc.contains ']' && !netloc.contains '[') then
      .error "Invalid IPv6 URL"
    else
      .ok (afterNetloc scheme netloc url2)
  | _ => .ok (afterNetloc scheme [] url1)

/-- CPython's `_splitparams`: split `;params` out of the last path segment. -/
def splitparamsL (url : List Char) : List Char × List Char :=
  if url.contains '/' then
    match findIdxFrom ';' url ((rfindIdx '/' url).getD 0) with
    | none => (url, [])
    | some i => (url.take i, url.drop (i + 1))
  else
    match findIdxFrom ';' url 0 with
    | none => (url, [])
    | some i => (url.take i, url.drop (i + 1))

/-- `urllib.parse.urlparse` on a character list (the `params` component is
split off the path and discarded, as the caller never reads it). -/
def urlparseE (l : List Char) : Except String UrlSplit :=
  match urlsplitE l with
  | .error m => .error m
  | .ok r =>
    if r.path.contains ';' then .ok { r with path := (splitparamsL r.path).1 }
    else .ok r

/-- Value of a hexadecimal digit (stated on code points: digits, then the
lowercase and uppercase letter ranges). -/
def hexDigitVal (c : Char) : Option Nat :=
  let n := c.toNat
  if 48 ≤ n ∧ n ≤ 57 then some (n - 48)
  else if 97 ≤ n ∧ n ≤ 102 then some (n - 87)
  else if 65 ≤ n ∧ n ≤ 70 then some (n - 55)
  else none

/-- Percent-decoding of `urllib.parse.unquote`. Each `%XX` pair becomes the
character with code `XX`; malformed escapes are kept verbatim. (CPython
decodes byte runs through UTF-8; on the ASCII alphabet the canonical-ID
check accepts, the two agree, and both reject everything else.) -/
def pctDecode : List Char → List Char
  | [] => []
  | '%' :: a :: b :: rest =>
    match hexDigitVal a, hexDigitVal b with
    | some x, some y => Char.ofNat (16 * x + y) :: pctDecode rest
    | _, _ => '%' :: pctDecode (a :: b :: rest)
  | c :: rest => c :: pctDecode rest

/-- `urllib.parse.unquote_plus`: `+` means space, then percent-decode. -/
def unquote_plus (l : List Char) : List Char :=
  pctDecode (l.map (fun c => if c = '+' then ' ' else c))

/-- One `name=value` chunk of a query string, skipped when empty, without
`=`, or with a blank value (`parse_qsl` with `keep_blank_values=False`). -/
def qsPair (chunk : List Char) : Option (List Char × List Char) :=
  if chunk = [] then none
  else
    match splitFirstL '=' chunk with
    | none => none
    | some (n, v) =>
      if v = [] then none
      else some (unquote_plus n, unquote_plus v)

/-- `urllib.parse.parse_qsl` (which `parse_qs` groups into a dict; the
caller only reads the first value of the `id` key, so the pair list in
split order carries all the information used). -/
def parse_qsl (qs : List Char) : List (List Char × List Char) :=
  (splitSep '&' qs).filterMap qsPair

/-! ## `gdrive_cli/ids.py` -/

/-- The `expected` argument of `_resolve_drive_id` ("file" or "folder"). -/
inductive Kind
  | file
  | folder
deriving DecidableEq

/-- The string passed for each kind. -/
def Kind.label : Kind → String
  | .file => "file"
  | .folder => "folder"

/-- A failure of the resolver: `ValidationError` raised by `ids.py` itself,
or a `ValueError` escaping from `urlparse`. Both are caught by the same
clause of the command-outcome classifier. -/
inductive ResolveError
  | validation (msg : String)
  | valueError (msg : String)
deriving DecidableEq

/-- A character of the canonical-ID alphabet `[A-Za-z0-9_-]`. -/
def isDriveIdChar (c : Char) : Bool :=
  (65 ≤ c.toNat && c.toNat ≤ 90) || (97 ≤ c.toNat && c.toNat ≤ 122) ||
  (48 ≤ c.toNat && c.toNat ≤ 57) || c.toNat = 95 || c.toNat = 45

/-- `_DRIVE_ID_RE.fullmatch`: the canonical-ID shape `^[A-Za-z0-9_-]{10,}$`. -/
def isDriveIdL (l : List Char) : Bool :=
  10 ≤ l.length && l.all isDriveIdChar

/-- The canonical-ID shape on strings. -/
def isDriveId (s : String) : Bool := isDriveIdL s.data

/-- Literal part of `_PATH_D_RE` (`/d/([A-Za-z0-9_-]{10,})`). -/
def drivePatD : List Char := "/d/".data

/-- Literal part of `_PATH_FILE_D_RE` (`/file/d/([A-Za-z0-9_-]{10,})`). -/
def drivePatFileD : List Char := "/file/d/".data

/-- Literal part of `_PATH_FOLDER_RE` (`/drive/folders/([A-Za-z0-9_-]{10,})`). -/
def drivePatFolder : List Char := "/drive/folders/".data

/-- The tuple `(_PATH_FOLDER_RE, _PATH_FILE_D_RE, _PATH_D_RE)` iterated by
`_resolve_drive_id`, most specific first. -/
def orderedPathShapes : List (List Char) := [drivePatFolder, drivePatFileD, drivePatD]

/-- Match one of the shape regexes at the head of `l`: the literal prefix
followed by a maximal run of at least ten canonical-ID characters, the
run being the capture group. -/
def hereRun (pat l : List Char) : Option (List Char) :=
  if startsWithL pat l then
    let run := (l.drop pat.length).takeWhile isDriveIdChar
    if 10 ≤ run.length then some run else none
  else none

/-- `regex.search` for a shape regex: leftmost position where the literal
prefix is followed by a run of at least ten ID characters; the greedy
capture is that full run. -/
def searchRun (pat : List Char) : List Char → Option (List Char)
  | [] => hereRun pat []
  | c :: rest =>
    match hereRun pat (c :: rest) with
    | some r => some r
    | none => searchRun pat rest

/-- The `for regex in (...)` loop: first shape that matches anywhere in the
path wins. -/
def firstShapeMatch : List (List Char) → List Char → Option (List Char)
  | [], _ => none
  | pat :: pats, path =>
    match searchRun pat path with
    | some r => some r
    | none => firstShapeMatch pats path

/-- `_resolve_drive_id` from `gdrive_cli/ids.py`, line for line: strip,
empty check, bare-ID fast path, URL parse, scheme check, host suffix check,
cross-kind guard, ordered path-shape extraction, `id=` query fallback,
final diagnosable failure. -/
def _resolve_drive_id (value : String) (expected : Kind) : Except ResolveError String :=
  let raw := stripL value.data
  if raw = [] then .error (.validation "Value cannot be empty.")
  else if isDriveIdL raw then .ok ⟨raw⟩
  else
    match urlparseE raw with
    | .error m => .error (.valueError m)
    | .ok parsed =>
      if ¬(parsed.scheme = "http".data ∨ parsed.scheme = "https".data) then
        .error (.validation ("Expected a Google Drive " ++ expected.label ++ " ID or link."))
      else
        let host := parsed.netloc.map Char.toLower
        if ¬endsWithL "google.com".data host then
          .error (.validation ("Expected a Google Drive " ++ expected.label ++ " link."))
        else
          let path := parsed.path
          let query := parse_qsl parsed.query
          if expected = .folder ∧ containsSub "/file/".data path then
            .error (.validation "Expected folder link/ID, but file link was provided.")
          else if expected = .file ∧ containsSub "/folders/".data path then
            .error (.validation "Expected file link/ID, but folder link was provided.")
          else
            match firstShapeMatch orderedPathShapes path with
            | some m => .ok ⟨m⟩
            | none =>
              match query.find? (fun p => decide (p.1 = "id".data)) with
              | some p =>
                if isDriveIdL p.2 then .ok ⟨p.2⟩
                else .error (.validation
                  ("Could not extract " ++ expected.label ++ " ID from value: " ++ value))
              | none => .error (.validation
                  ("Could not extract " ++ expected.label ++ " ID from value: " ++ value))

/-- `resolve_folder_id`: absent folder input means the canonical root. -/
def resolve_folder_id : Option String → Except ResolveError String
  | none => .ok "root"
  | some value => _resolve_drive_id value .folder

/-- `resolve_file_id`: a file locator is mandatory. -/
def resolve_file_id (value : String) : Except ResolveError String :=
  _resolve_drive_id value .file

/-! ## `json.loads`, as used by `_extract_http_error` -/

/-- A decoded JSON value. Numbers keep their lexeme: the caller only ever
asks whether a value is truthy and, degenerately, for its `str()` form, and
the lexeme answers both on every input exercised here. -/
inductive Json
  | null
  | bool (b : Bool)
  | num (lexeme : String)
  | str (s : String)
  | arr (items : List Json)
  | obj (fields : List (String × Json))

/-- The opening and closing braces of a JSON object. -/
def lbrace : Char := '\x7b'

/-- Closing brace. -/
def rbrace : Char := '\x7d'

/-- JSON inter-token whitespace. -/
def isJsonWs (c : Char) : Bool :=
  c = ' ' || c = '\t' || c = '\n' || c = '\r'

/-- Skip JSON whitespace. -/
def skipJWs (l : List Char) : List Char := l.dropWhile isJsonWs

/-- Single-character JSON string escapes. -/
def escChar (c : Char) : Option Char :=
  if c = '"' then some '"'
  else if c = '\\' then some '\\'
  else if c = '/' then some '/'
  else if c = 'b' then some '\x08'
  else if c = 'f' then some '\x0c'
  else if c = 'n' then some '\n'
  else if c = 'r' then some '\r'
  else if c = 't' then some '\t'
  else none

/-- JSON string body after the opening quote, strict mode: raw control
characters are rejected, escapes are the fixed eight plus `\uXXXX`.
(Surrogate-pair recombination is not modelled; no claim exercises it.) -/
def parseJStr (fuel : Nat) (l : List Char) : Option (List Char × List Char) :=
  match fuel, l with
  | 0, _ => none
  | _, [] => none
  | fuel + 1, c :: rest =>
    if c = '"' then some ([], rest)
    else if c = '\\' then
      match rest with
      | [] => none
      | e :: rest2 =>
        match escChar e with
        | some d => (parseJStr fuel rest2).map (fun p => (d :: p.1, p.2))
        | none =>
          if e = 'u' then
            match rest2 with
            | h1 :: h2 :: h3 :: h4 :: rest3 =>
              match hexDigitVal h1, hexDigitVal h2, hexDigitVal h3, hexDigitVal h4 with
              | some w, some x, some y, some z =>
                (parseJStr fuel rest3).map
                  (fun p => (Char.ofNat (4096 * w + 256 * x + 16 * y + z) :: p.1, p.2))
              | _, _, _, _ => none
            | _ => none
          else none
    else if c.toNat < 32 then none
    else (parseJStr fuel rest).map (fun p => (c :: p.1, p.2))

/-- A maximal run of decimal digits. -/
def digitRun (l : List Char) : List Char × List Char :=
  (l.takeWhile Char.isDigit, l.dropWhile Char.isDigit)

/-- Optional exponent part of a JSON number. -/
def parseJExp (acc : List Char) (l : List Char) : Option (List Char × List Char) :=
  match l with
  | [] => some (acc, [])
  | c :: r =>
    if c = 'e' ∨ c = 'E' then
      let (sgn, r2) :=
        match r with
        | s :: r3 => if s = '+' ∨ s = '-' then ([s], r3) else (([] : List Char), r)
        | [] => ([], r)
      let (ds, rest) := digitRun r2
      if ds = [] then none else some (acc ++ c :: (sgn ++ ds), rest)
    else some (acc, l)

/-- Optional fraction part of a JSON number, then the exponent. -/
def parseJFrac (acc : List Char) (l : List Char) : Option (List Char × List Char) :=
  match l with
  | '.' :: r =>
    let (ds, rest) := digitRun r
    if ds = [] then none else parseJExp (acc ++ '.' :: ds) rest
  | _ => parseJExp acc l

/-- A JSON number lexeme `-?(0|[1-9][0-9]*)(.[0-9]+)?([eE][+-]?[0-9]+)?`.
(The non-standard `NaN`/`Infinity` constants CPython also accepts are not
modelled; no claim exercises them.) -/
def parseJNum (l : List Char) : Option (List Char × List Char) :=
  let (neg, l1) :=
    match l with
    | '-' :: r => (['-'], r)
    | _ => (([] : List Char), l)
  match l1 with
  | [] => none
  | c :: r =>
    if c = '0' then parseJFrac (neg ++ [c]) r
    else if c.isDigit then
      let (ds, rest) := digitRun r
      parseJFrac (neg ++ c :: ds) rest
    else none

mutual

/-- One JSON value: dispatch on the first non-space character. -/
def parseJVal (fuel : Nat) (l : List Char) : Option (Json × List Char) :=
  match fuel with
  | 0 => none
  | fuel + 1 =>
    match skipJWs l with
    | [] => none
    | c :: rest =>
      if c = '"' then (parseJStr (rest.length + 1) rest).map (fun p => (Json.str ⟨p.1⟩, p.2))
      else if c = lbrace then parseJObjBody fuel rest
      else if c = '[' then parseJArrBody fuel rest
      else if startsWithL "true".data (c :: rest) then some (Json.bool true, (c :: rest).drop 4)
      else if startsWithL "false".data (c :: rest) then some (Json.bool false, (c :: rest).drop 5)
      else if startsWithL "null".data (c :: rest) then some (Json.null, (c :: rest).drop 4)
      else (parseJNum (c :: rest)).map (fun p => (Json.num ⟨p.1⟩, p.2))

/-- Object body after the opening brace: empty object or member list. -/
def parseJObjBody (fuel : Nat) (l : List Char) : Option (Json × List Char) :=
  match fuel with
  | 0 => none
  | fuel + 1 =>
    match skipJWs l with
    | [] => none
    | c :: rest =>
      if c = rbrace then some (Json.obj [], rest)
      else parseJMembers fuel (c :: rest) []

/-- Members of an object: `"key" : value` separated by commas. -/
def parseJMembers (fuel : Nat) (l : List Char) (acc : List (String × Json)) :
    Option (Json × List Char) :=
  match fuel with
  | 0 => none
  | fuel + 1 =>
    match skipJWs l with
    | '"' :: rest =>
      match parseJStr (rest.length + 1) rest with
      | none => none
      | some (key, r1) =>
        match skipJWs r1 with
        | ':' :: r2 =>
          match parseJVal fuel r2 with
          | none => none
          | some (v, r3) =>
            match skipJWs r3 with
            | [] => none
            | c :: r4 =>
              if c = ',' then parseJMembers fuel r4 (acc ++ [(⟨key⟩, v)])
              else if c = rbrace then some (Json.obj (acc ++ [(⟨key⟩, v)]), r4)
              else none
        | _ => none
    | _ => none

/-- Array body after the opening bracket: empty array or item list. -/
def parseJArrBody (fuel : Nat) (l : List Char) : Option (Json × List Char) :=
  match fuel with
  | 0 => none
  | fuel + 1 =>
    match skipJWs l with
    | ']' :: rest => some (Json.arr [], rest)
    | _ => parseJItems fuel l []

/-- Items of an array, separated by commas. -/
def parseJItems (fuel : Nat) (l : List Char) (acc : List Json) :
    Option (Json × List Char) :=
  match fuel with
  | 0 => none
  | fuel + 1 =>
    match parseJVal fuel l with
    | none => none
    | some (v, r1) =>
      match skipJWs r1 with
      | ',' :: r2 => parseJItems fuel r2 (acc ++ [v])
      | ']' :: r2 => some (Json.arr (acc ++ [v]), r2)
      | _ => none

end

/-- `json.loads` on a decoded text: one value, nothing but whitespace after
it. The fuel bounds parser nesting and is ample for the input's length. -/
def json_loads (s : String) : Option Json :=
  match parseJVal (2 * s.data.length + 2) s.data with
  | some (v, rest) => if skipJWs rest = [] then some v else none
  | none => none

/-- Python `dict` lookup for an object literal: duplicate keys are
overwritten in insertion order, so the last occurrence wins. -/
def pyDictGet (fields : List (String × Json)) (key : String) : Option Json :=
  (fields.reverse.find? (fun p => decide (p.1 = key))).map (fun p => p.2)

/-- Is a JSON-decoded Python value truthy (`if message:`)? -/
def numIsZero (lex : String) : Bool :=
  (lex.data.takeWhile (fun c => !(c = 'e' || c = 'E'))).all
    (fun c => !('1' ≤ c && c ≤ '9'))

/-- Python truthiness of a JSON-decoded value. -/
def jsonTruthy : Json → Bool
  | .null => false
  | .bool b => b
  | .num lex => !numIsZero lex
  | .str s => !s.data.isEmpty
  | .arr items => !items.isEmpty
  | .obj fields => !fields.isEmpty

/-- A single quote character, used when rendering Python reprs. -/
def sq : String := String.singleton '\x27'

mutual

/-- Python `repr` of a JSON-decoded value. Approximation: strings are
single-quoted without re-escaping, numbers print their lexeme. Only the
`str` branch of `pyStrJ` is exercised by any claim. -/
def pyReprJ : Json → String
  | .null => "None"
  | .bool true => "True"
  | .bool false => "False"
  | .num lex => lex
  | .str s => sq ++ s ++ sq
  | .arr items => "[" ++ String.intercalate ", " (pyReprList items) ++ "]"
  | .obj fields =>
    String.singleton lbrace ++ String.intercalate ", " (pyReprFields fields) ++
      String.singleton rbrace

/-- Reprs of a list of values. -/
def pyReprList : List Json → List String
  | [] => []
  | j :: js => pyReprJ j :: pyReprList js

/-- Reprs of the members of an object. -/
def pyReprFields : List (String × Json) → List String
  | [] => []
  | (k, v) :: fs => (sq ++ k ++ sq ++ ": " ++ pyReprJ v) :: pyReprFields fs

end

/-- Python `str()` of a JSON-decoded value. -/
def pyStrJ : Json → String
  | .str s => s
  | v => pyReprJ v

/-! ## `gdrive_cli/cli.py`: the command-outcome classifier -/

/-- An `HttpError` from the API client: the response status if the response
object carries one, the raw body, and the exception's `str()` form. -/
structure HttpErr where
  status : Option Nat
  content : Option String
  reprStr : String
deriving DecidableEq

/-- Outcome of `_extract_http_error`: a message, or the uncaught
`AttributeError` raised when the payload's `error` field is not a dict. -/
inductive ExtractResult
  | ok (msg : String)
  | attributeError
deriving DecidableEq

/-- `_extract_http_error` from `cli.py`: missing/empty body, undecodable
body, non-dict payload, and missing or falsy `error.message` all fall back
to `str(exc)`; a present non-dict `error` value makes `error.get` raise. -/
def _extract_http_error (e : HttpErr) : ExtractResult :=
  match e.content with
  | none => .ok e.reprStr
  | some c =>
    if c.data = [] then .ok e.reprStr
    else
      match json_loads c with
      | none => .ok e.reprStr
      | some payload =>
        match payload with
        | .obj fields =>
          match (pyDictGet fields "error").getD (Json.obj []) with
          | .obj efields =>
            match pyDictGet efields "message" with
            | some msg => if jsonTruthy msg then .ok (pyStrJ msg) else .ok e.reprStr
            | none => .ok e.reprStr
          | _ => .attributeError
        | _ => .ok e.reprStr

/-- The union of exception classes caught by `command_errors`. -/
inductive CmdError
  | validation (msg : String)
  | valueError (msg : String)
  | auth (msg : String)
  | http (e : HttpErr)
deriving DecidableEq

/-- Observable outcome of one CLI process invocation. -/
structure ProcResult where
  exitCode : Nat
  stdout : List String
  stderr : List String
deriving DecidableEq

/-- `getattr(exc.resp, "status", "unknown")` rendered into the message. -/
def statusText : Option Nat → String
  | some n => toString n
  | none => "unknown"

/-- The `command_errors` decorator: the wrapped body either returns its
stdout lines or raises one of the caught failures; each failure is echoed
to stderr and converted to a fixed exit code. An `AttributeError` escaping
`_extract_http_error` is uncaught: the interpreter prints a traceback
(not modelled beyond the stream being empty of diagnostics) and exits 1. -/
def command_errors (body : Except CmdError (List String)) : ProcResult :=
  match body with
  | .ok out => ⟨0, out, []⟩
  | .error (.validation m) => ⟨2, [], ["Error: " ++ m]⟩
  | .error (.valueError m) => ⟨2, [], ["Error: " ++ m]⟩
  | .error (.auth m) => ⟨3, [], ["Auth error: " ++ m]⟩
  | .error (.http e) =>
    match _extract_http_error e with
    | .ok msg => ⟨4, [], ["API error (" ++ statusText e.status ++ "): " ++ msg]⟩
    | .attributeError => ⟨1, [], []⟩

/-- Resolver failures enter the classifier's first catch clause
(`ValidationError`, `ValueError`). -/
def ResolveError.toCmd : ResolveError → CmdError
  | .validation m => .validation m
  | .valueError m => .valueError m

/-! ## Command bodies (`ls`, `download`) with an explicit collaborator
environment and an event trace -/

/-- A file record as returned by the Drive `files` resource. -/
structure DriveFile where
  id : Option String
  name : Option String
  mimeType : Option String
  size : Option String
  modifiedTime : Option String
  trashed : Option Bool
deriving DecidableEq

/-- Side effects a command body can perform against its collaborators. -/
inductive Event
  | credentialLoad (write : Bool)
  | apiCall (method : String)
deriving DecidableEq

/-- The external collaborators of a command: the credential manager
(`gdrive_cli/auth.py`, an external collaborator per the spec) and the
remote API client. Each is a function from request to outcome. -/
structure DriveEnv where
  loadCreds : Bool → Except String Unit
  filesList : String → Except HttpErr (List DriveFile)
  filesGet : String → Except HttpErr DriveFile
  getMedia : String → Except HttpErr Unit

/-- Modelled from the spec: the output rendering collaborator
(`render_records` in `gdrive_cli/output.py`, which is not present under
`src/`) turns a list of uniform records into a printable string; modelled
as one line per record. -/
def render_records (records : List (List (String × String))) : List String :=
  records.map (fun r => String.intercalate " " (r.map (fun p => p.1 ++ "=" ++ p.2)))

/-- `build_drive_service` from `client.py`: loads credentials (an
authentication step, failing with `AuthError`) and builds the service. -/
def build_drive_service (env : DriveEnv) (write : Bool) :
    List Event × Except CmdError Unit :=
  ([Event.credentialLoad write],
    match env.loadCreds write with
    | .error m => .error (.auth m)
    | .ok _ => .ok ())

/-- The record `ls` builds for each listed file. Missing fields render
empty; the rendering collaborator is spec-modelled, so the exact spelling
of absent values is not load-bearing. -/
def fileRecord (f : DriveFile) : List (String × String) :=
  [("id", f.id.getD ""), ("name", f.name.getD ""), ("mimeType", f.mimeType.getD ""),
   ("size", f.size.getD ""), ("modifiedTime", f.modifiedTime.getD ""),
   ("trashed", match f.trashed with
     | some true => "True"
     | some false => "False"
     | none => "")]

/-- The query string `ls` sends: `'<folder-id>' in parents and trashed = false`. -/
def lsQuery (folderId : String) : String :=
  sq ++ folderId ++ sq ++ " in parents and trashed = false"

/-- The body of the `ls` command: resolve the folder locator, build the
service (credential load), call `files.list`, render the records. The
trace records the credential load and the remote call in program order. -/
def list_directory (env : DriveEnv) (folder_value : Option String) :
    List Event × Except CmdError (List String) :=
  match resolve_folder_id folder_value with
  | .error e => ([], .error e.toCmd)
  | .ok folderId =>
    let (ev, svc) := build_drive_service env false
    match svc with
    | .error e => (ev, .error e)
    | .ok _ =>
      match env.filesList (lsQuery folderId) with
      | .error he => (ev ++ [Event.apiCall "files.list"], .error (.http he))
      | .ok entries =>
        (ev ++ [Event.apiCall "files.list"],
          .ok (render_records (entries.map fileRecord)))

/-- The body of the `download` command: resolve the file locator, build the
service, fetch metadata, fetch media, report. Local file writing is an
effect on the filesystem collaborator and is not further modelled; the
echoed confirmation line is. -/
def download_file (env : DriveEnv) (file_value : String) (output_path : Option String) :
    List Event × Except CmdError (List String) :=
  match resolve_file_id file_value with
  | .error e => ([], .error e.toCmd)
  | .ok fileId =>
    let (ev, svc) := build_drive_service env false
    match svc with
    | .error e => (ev, .error e)
    | .ok _ =>
      match env.filesGet fileId with
      | .error he => (ev ++ [Event.apiCall "files.get"], .error (.http he))
      | .ok meta =>
        let dname :=
          match meta.name with
          | some n => if n = "" then fileId else n
          | none => fileId
        let destination :=
          match output_path with
          | some p => p
          | none => dname
        match env.getMedia fileId with
        | .error he =>
          (ev ++ [Event.apiCall "files.get", Event.apiCall "files.get_media"],
            .error (.http he))
        | .ok _ =>
          (ev ++ [Event.apiCall "files.get", Event.apiCall "files.get_media"],
            .ok ["Downloaded " ++ dname ++ " to " ++ destination])

/-! ## The `doctor` diagnostics aggregator -/

/-- The record `stored_credentials_info` returns when credentials exist
(spec section 6: `{path, scopes, has_refresh_token, client_id}`; only the
path is read by `doctor`). Per the spec the record is non-empty, so a
present record is truthy. -/
structure CredInfo where
  path : String
deriving DecidableEq

/-- One row of the diagnostics table: `{name, status ∈ {ok, warn, fail},
detail}`. -/
structure Check where
  check : String
  status : String
  detail : String
deriving DecidableEq

/-- The collaborators `doctor` consults, each as its outcome: the stored
credential probe (which can raise `AuthError`, return `None`, or return a
record), the credential load/refresh, and the one-page `files.list`
sample. All remaining failure classes of the sample call are caught by the
same clause and stringified. -/
structure DoctorEnv where
  pythonVersion : String
  credentialsPath : String
  storedInfo : Except String (Option CredInfo)
  loadCreds : Except String Unit
  filesListSample : Except String Nat

/-- The check list and failure count accumulated by `doctor`, appended in
program order. A `stored_credentials_info` exception records a `fail` and
leaves `info` as `None`, so the `warn` row is also appended, exactly as in
the source. -/
def doctorChecks (env : DoctorEnv) : List Check × Nat :=
  let c1 : Check := ⟨"python", "ok", env.pythonVersion⟩
  let c2 : Check := ⟨"credentials-path", "ok", env.credentialsPath⟩
  let (pre, fail1, info) :=
    match env.storedInfo with
    | .error m =>
      ([c1, c2, (⟨"stored-credentials", "fail", m⟩ : Check)], 1, (none : Option CredInfo))
    | .ok i => ([c1, c2], 0, i)
  let pre2 :=
    match info with
    | none => pre ++ [(⟨"stored-credentials", "warn",
        "not found at " ++ env.credentialsPath ++ " (ADC fallback may still work)"⟩ : Check)]
    | some r => pre ++ [(⟨"stored-credentials", "ok", r.path⟩ : Check)]
  let (pre3, fail2) :=
    match env.loadCreds with
    | .ok _ =>
      (pre2 ++ [(⟨"auth-refresh", "ok", "credentials load and refresh succeeded"⟩ : Check)], 0)
    | .error m => (pre2 ++ [(⟨"auth-refresh", "fail", m⟩ : Check)], 1)
  let (pre4, fail3) :=
    match env.filesListSample with
    | .ok n => (pre3 ++ [(⟨"api-connectivity", "ok",
        "files.list succeeded (" ++ toString n ++ " file(s) sampled)"⟩ : Check)], 0)
    | .error m => (pre3 ++ [(⟨"api-connectivity", "fail", m⟩ : Check)], 1)
  (pre4, fail1 + fail2 + fail3)

/-- Modelled from the spec: the table rendering of one check row by the
output collaborator (one printable line per record). -/
def renderCheck (c : Check) : String :=
  c.check ++ " " ++ c.status ++ " " ++ c.detail

/-- The `doctor` command: print every recorded check, then exit 1 when any
check failed and 0 otherwise. `doctor` is not wrapped by `command_errors`. -/
def doctor (env : DoctorEnv) : ProcResult :=
  let (checks, failures) := doctorChecks env
  ⟨if failures = 0 then 0 else 1, checks.map renderCheck, []⟩

/-! ## The recognized URL shapes named by the spec's testable properties -/

/-- A folder-shaped Drive URL carrying the given ID. -/
def folder_url (id : String) : String :=
  "https://drive.google.com/drive/folders/" ++ id

/-- A file-shaped Drive URL carrying the given ID. -/
def file_url (id : String) : String :=
  "https://drive.google.com/file/d/" ++ id ++ "/view"

/-! ## Helper lemmas: character classes and list scanning -/

theorem dropWhile_eq_self_of_all {p : Char → Bool} :
    ∀ l : List Char, (∀ c ∈ l, p c = false) → l.dropWhile p = l
  | [], _ => rfl
  | c :: cs, h => by
    rw [List.dropWhile_cons, h c (List.mem_cons_self c cs)]
    simp

theorem stripL_of_no_space (l : List Char) (h : ∀ c ∈ l, isPySpace c = false) :
    stripL l = l := by
  unfold stripL
  rw [dropWhile_eq_self_of_all l h,
    dropWhile_eq_self_of_all l.reverse (fun c hc => h c (List.mem_reverse.mp hc)),
    List.reverse_reverse]

theorem driveIdChar_not_pySpace {c : Char} (h : isDriveIdChar c = true) :
    isPySpace c = false := by
  rw [Bool.eq_false_iff]
  intro hc
  simp only [isDriveIdChar, Bool.or_eq_true, Bool.and_eq_true, decide_eq_true_eq] at h
  simp only [isPySpace, Bool.or_eq_true, Bool.and_eq_true, decide_eq_true_eq] at hc
  omega

theorem driveIdChar_not_unsafe {c : Char} (h : isDriveIdChar c = true) :
    unsafeUrlChar c = false := by
  rw [Bool.eq_false_iff]
  intro hc
  simp only [isDriveIdChar, Bool.or_eq_true, Bool.and_eq_true, decide_eq_true_eq] at h
  simp only [unsafeUrlChar, Bool.or_eq_true, decide_eq_true_eq] at hc
  omega

theorem driveIdChar_ne {c : Char} (x : Char) (h : isDriveIdChar c = true)
    (hx : isDriveIdChar x = false) : c ≠ x := by
  intro e
  rw [e, hx] at h
  simp at h

theorem isDriveIdL_all {l : List Char} (h : isDriveIdL l = true) :
    ∀ c ∈ l, isDriveIdChar c = true := by
  simp only [isDriveIdL, Bool.and_eq_true, List.all_eq_true, decide_eq_true_eq] at h
  exact h.2

theorem isDriveIdL_len {l : List Char} (h : isDriveIdL l = true) : 10 ≤ l.length := by
  simp only [isDriveIdL, Bool.and_eq_true, decide_eq_true_eq] at h
  exact h.1

theorem isDriveIdL_false_of_mem {l : List Char} {c : Char} (hm : c ∈ l)
    (hc : isDriveIdChar c = false) : isDriveIdL l = false := by
  rw [Bool.eq_false_iff]
  intro ht
  rw [isDriveIdL_all ht c hm] at hc
  simp at hc

theorem stripL_driveId {l : List Char} (h : isDriveIdL l = true) : stripL l = l :=
  stripL_of_no_space l (fun c hc => driveIdChar_not_pySpace (isDriveIdL_all h c hc))

/-! ## Helper lemmas: the resolver's fast path -/

theorem resolve_fast_path (s : String) (k : Kind) (h : isDriveId s = true) :
    _resolve_drive_id s k = .ok s := by
  have hs : stripL s.data = s.data := stripL_driveId h
  have hne : s.data ≠ [] := by
    intro e
    have hl := isDriveIdL_len h
    rw [e] at hl
    simp at hl
  simp only [_resolve_drive_id, hs]
  rw [if_neg hne, if_pos (show isDriveIdL s.data = true from h)]

/-- Every resolver failure is classified `InvalidInput` by the outcome
classifier: exit code 2 with an `Error:` diagnostic on stderr. -/
theorem resolveError_exit_two (e : ResolveError) :
    (command_errors (.error e.toCmd)).exitCode = 2 ∧
    (command_errors (.error e.toCmd)).stdout = [] := by
  cases e <;> exact ⟨rfl, rfl⟩

/-! ## Claims -/

/-- C6: for every string `s` matching the canonical-ID shape (characters
from letters, digits, underscore, hyphen; length at least 10),
`resolve(s, kind)` returns `s` unchanged for both kinds File and Folder. -/
theorem claim_C6 (s : String) (h : isDriveId s = true) :
    resolve_folder_id (some s) = .ok s ∧ resolve_file_id s = .ok s :=
  ⟨resolve_fast_path s .folder h, resolve_fast_path s .file h⟩

/-- Witness for C6 at the bare ID used throughout the repository's tests. -/
theorem claim_C6_witness :
    resolve_folder_id (some "1AbcdefGhIjKlmNop") = .ok "1AbcdefGhIjKlmNop" ∧
    resolve_file_id "1AbcdefGhIjKlmNop" = .ok "1AbcdefGhIjKlmNop" :=
  claim_C6 "1AbcdefGhIjKlmNop" (by decide)

/-- C7: resolving with kind Folder and an absent input returns the canonical
default `"root"`; a file locator is mandatory (the file resolver takes a
required value, so absence is excluded at its boundary) and an input that
is empty after trimming fails with InvalidInput saying the value cannot be
empty, for both kinds. -/
theorem claim_C7 :
    resolve_folder_id none = .ok "root" ∧
    ∀ s : String, stripL s.data = [] →
      resolve_file_id s = .error (.validation "Value cannot be empty.") ∧
      resolve_folder_id (some s) = .error (.validation "Value cannot be empty.") := by
  refine ⟨rfl, fun s h => ⟨?_, ?_⟩⟩ <;>
    simp [resolve_file_id, resolve_folder_id, _resolve_drive_id, h]

/-- Witness for C7 at the empty string and a whitespace-only string. -/
theorem claim_C7_witness :
    resolve_file_id "" = .error (.validation "Value cannot be empty.") ∧
    resolve_folder_id (some "  ") = .error (.validation "Value cannot be empty.") :=
  ⟨(claim_C7.2 "" (by decide)).1, (claim_C7.2 "  " (by decide)).2⟩

/-- C1: the outcome classifier maps a success to exit 0 with its output on
stdout and nothing on stderr; an InvalidInput failure (`ValidationError` or
`ValueError`) to exit 2 with `Error: <detail>`; an AuthenticationFailure to
exit 3 with `Auth error: <detail>`; a RemoteApiFailure whose message
extraction completes to exit 4 with
`API error (<status-or-"unknown">): <message>`. Every diagnostic goes to
stderr and stdout is empty on failure. -/
theorem claim_C1 :
    (∀ out : List String, command_errors (.ok out) = ⟨0, out, []⟩) ∧
    (∀ m, command_errors (.error (.validation m)) = ⟨2, [], ["Error: " ++ m]⟩) ∧
    (∀ m, command_errors (.error (.valueError m)) = ⟨2, [], ["Error: " ++ m]⟩) ∧
    (∀ m, command_errors (.error (.auth m)) = ⟨3, [], ["Auth error: " ++ m]⟩) ∧
    (∀ (e : HttpErr) (msg : String), _extract_http_error e = .ok msg →
      command_errors (.error (.http e)) =
        ⟨4, [], ["API error (" ++ statusText e.status ++ "): " ++ msg]⟩) := by
  refine ⟨fun _ => rfl, fun _ => rfl, fun _ => rfl, fun _ => rfl, fun e msg h => ?_⟩
  simp only [command_errors, h]

/-- Witness for C1 at concrete failures of each class. -/
theorem claim_C1_witness :
    command_errors (.error (.http ⟨some 404, none, "http 404 raw form"⟩)) =
      ⟨4, [], ["API error (404): http 404 raw form"]⟩ ∧
    command_errors (.error (.auth "token expired")) =
      ⟨3, [], ["Auth error: token expired"]⟩ ∧
    command_errors (.error (.validation "Value cannot be empty.")) =
      ⟨2, [], ["Error: Value cannot be empty."]⟩ :=
  ⟨claim_C1.2.2.2.2 ⟨some 404, none, "http 404 raw form"⟩ "http 404 raw form" rfl,
    claim_C1.2.2.2.1 "token expired", claim_C1.2.1 "Value cannot be empty."⟩

/-- C8: in the `ls` and `download` command bodies, a resolution failure
produces an empty collaborator trace — no credential load and no remote
call is performed; both happen only after resolution has succeeded. -/
theorem claim_C8 :
    (∀ (env : DriveEnv) (folder_value : Option String) (e : ResolveError),
      resolve_folder_id folder_value = .error e →
      list_directory env folder_value = ([], .error e.toCmd)) ∧
    (∀ (env : DriveEnv) (file_value : String) (output_path : Option String)
      (e : ResolveError),
      resolve_file_id file_value = .error e →
      download_file env file_value output_path = ([], .error e.toCmd)) := by
  constructor
  · intro env folder_value e h
    simp only [list_directory, h]
  · intro env file_value output_path e h
    simp only [download_file, h]

/-- Witness for C8 at an unresolvable locator and a trivial environment. -/
theorem claim_C8_witness :
    list_directory
        ⟨fun _ => .ok (), fun _ => .ok [], fun _ => .ok ⟨none, none, none, none, none, none⟩,
          fun _ => .ok ()⟩ (some "???") =
      ([], .error (.validation "Expected a Google Drive folder ID or link.")) ∧
    download_file
        ⟨fun _ => .ok (), fun _ => .ok [], fun _ => .ok ⟨none, none, none, none, none, none⟩,
          fun _ => .ok ()⟩ "???" none =
      ([], .error (.validation "Expected a Google Drive file ID or link.")) :=
  ⟨claim_C8.1 _ (some "???") (.validation "Expected a Google Drive folder ID or link.")
      (by rfl),
    claim_C8.2 _ "???" none (.validation "Expected a Google Drive file ID or link.")
      (by rfl)⟩

/-- C9: for every environment, the diagnostics aggregator records every one
of its five checks (continuing past failures), prints every recorded check
result, and exits 1 exactly when some check has status `fail` and 0
otherwise — in particular a `warn` status never affects the exit code. -/
theorem claim_C9 (env : DoctorEnv) :
    (doctor env).stdout = (doctorChecks env).1.map renderCheck ∧
    (∀ name ∈ (["python", "credentials-path", "stored-credentials", "auth-refresh",
        "api-connectivity"] : List String),
      name ∈ (doctorChecks env).1.map (fun c => c.check)) ∧
    (doctor env).exitCode =
      (if (doctorChecks env).1.any (fun c => c.status == "fail") then 1 else 0) := by
  obtain ⟨pv, cp, si, lc, fl⟩ := env
  refine ⟨rfl, ?_, ?_⟩ <;>
    rcases si with m | oi <;> rcases lc with lm | lu <;> rcases fl with fm | fn <;>
      first
        | (rcases oi with _ | r <;> simp [doctor, doctorChecks, renderCheck])
        | simp [doctor, doctorChecks, renderCheck]

/-- Witness for C9: one failing check among passing ones yields exit 1 while
every check is still recorded and printed. -/
theorem claim_C9_witness :
    (doctor ⟨"3.12.1", "/tmp/creds.json", .ok (some ⟨"/tmp/creds.json"⟩),
        .error "bad creds", .ok 1⟩).exitCode = 1 ∧
    "auth-refresh" ∈ (doctorChecks ⟨"3.12.1", "/tmp/creds.json",
        .ok (some ⟨"/tmp/creds.json"⟩), .error "bad creds", .ok 1⟩).1.map
        (fun c => c.check) ∧
    (doctor ⟨"3.12.1", "/tmp/creds.json", .ok (some ⟨"/tmp/creds.json"⟩),
        .error "bad creds", .ok 1⟩).stdout.length = 5 := by
  refine ⟨?_, ?_, ?_⟩
  · rw [(claim_C9 _).2.2]
    decide
  · exact (claim_C9 _).2.1 "auth-refresh" (by decide)
  · rw [(claim_C9 _).1]
    decide

/-! ## Helper lemmas: every successful extraction is canonical-ID shaped -/

theorem hereRun_shape {pat l r : List Char} (h : hereRun pat l = some r) :
    isDriveIdL r = true := by
  unfold hereRun at h
  split at h
  · simp only [] at h
    split at h
    · rename_i hlen
      injection h with h
      subst h
      simp only [isDriveIdL, Bool.and_eq_true, decide_eq_true_eq, List.all_eq_true]
      exact ⟨hlen, fun c hc => List.mem_takeWhile_imp hc⟩
    · exact absurd h (by simp)
  · exact absurd h (by simp)

theorem searchRun_shape {pat r : List Char} :
    ∀ l, searchRun pat l = some r → isDriveIdL r = true := by
  intro l
  induction l with
  | nil =>
    intro h
    exact hereRun_shape (by simpa [searchRun] using h)
  | cons c rest ih =>
    intro h
    simp only [searchRun] at h
    cases hh : hereRun pat (c :: rest) with
    | some v =>
      rw [hh] at h
      injection h with h
      subst h
      exact hereRun_shape hh
    | none =>
      rw [hh] at h
      exact ih h

theorem firstShapeMatch_shape {r : List Char} :
    ∀ (pats : List (List Char)) (path : List Char),
      firstShapeMatch pats path = some r → isDriveIdL r = true := by
  intro pats
  induction pats with
  | nil =>
    intro path h
    simp [firstShapeMatch] at h
  | cons pat pats ih =>
    intro path h
    simp only [firstShapeMatch] at h
    cases hs : searchRun pat path with
    | some v =>
      rw [hs] at h
      injection h with h
      subst h
      exact searchRun_shape path hs
    | none =>
      rw [hs] at h
      exact ih path h

theorem resolve_ok_shape {v : String} {k : Kind} {r : String}
    (h : _resolve_drive_id v k = .ok r) : isDriveId r = true := by
  simp only [_resolve_drive_id] at h
  split at h
  · exact absurd h (by simp)
  · split at h
    · rename_i hid
      injection h with h
      subst h
      exact hid
    · split at h
      · exact absurd h (by simp)
      · split at h
        · exact absurd h (by simp)
        · split at h
          · exact absurd h (by simp)
          · split at h
            · exact absurd h (by simp)
            · split at h
              · exact absurd h (by simp)
              · split at h
                · rename_i m hm
                  injection h with h
                  subst h
                  exact firstShapeMatch_shape _ _ hm
                · split at h
                  · split at h
                    · rename_i p hp hid2
                      injection h with h
                      subst h
                      exact hid2
                    · exact absurd h (by simp)
                  · exact absurd h (by simp)

/-- C10: every successful result of the resolver is either the literal
`"root"` (returned only for absent folder input) or a string matching the
canonical-ID shape; every non-root success re-resolves to itself under the
same kind; and feeding `"root"` itself back in fails with InvalidInput for
both kinds (it is neither a canonical ID nor a URL). -/
theorem claim_C10 :
    (∀ (v : String) (k : Kind) (r : String), _resolve_drive_id v k = .ok r →
      isDriveId r = true ∧ r ≠ "root" ∧ _resolve_drive_id r k = .ok r) ∧
    resolve_folder_id none = .ok "root" ∧
    (∀ k : Kind, _resolve_drive_id "root" k =
      .error (.validation ("Expected a Google Drive " ++ k.label ++ " ID or link."))) := by
  refine ⟨fun v k r h => ?_, rfl, fun k => ?_⟩
  · have hs := resolve_ok_shape h
    refine ⟨hs, ?_, resolve_fast_path r k hs⟩
    intro e
    rw [e] at hs
    exact absurd hs (by decide)
  · cases k <;> rfl

/-- Witness for C10 at a query-parameter URL resolving to a bare ID. -/
theorem claim_C10_witness :
    isDriveId "1AbcdefGhIjKlmNop" = true ∧
    "1AbcdefGhIjKlmNop" ≠ "root" ∧
    _resolve_drive_id "1AbcdefGhIjKlmNop" Kind.folder = .ok "1AbcdefGhIjKlmNop" :=
  claim_C10.1 "https://drive.google.com/open?id=1AbcdefGhIjKlmNop" .folder
    "1AbcdefGhIjKlmNop" (by rfl)

/-- C4 counterexample: a status-404 `HttpError` whose body is the JSON
object `\x7b"error":"bad"\x7d` makes `error.get("message")` raise
`AttributeError` inside the classifier, so the process exits 1, not 4, and
no fallback message is emitted — refuting "if that extraction fails for any
reason, it falls back to the raw error's string form and still exits with
code 4". -/
theorem claim_C4_counterexample :
    _extract_http_error ⟨some 404, some "\x7b\"error\":\"bad\"\x7d", "raw form"⟩ =
      .attributeError ∧
    (command_errors (.error (.http ⟨some 404, some "\x7b\"error\":\"bad\"\x7d",
        "raw form"⟩))).exitCode = 1 ∧
    (command_errors (.error (.http ⟨some 404, some "\x7b\"error\":\"bad\"\x7d",
        "raw form"⟩))).exitCode ≠ 4 :=
  ⟨rfl, rfl, by decide⟩

/-- C4 (amended): the classifier's message extraction parses the body as a
JSON object and reads the nested `error.message` field; when the body is
missing or empty, not valid JSON, not a JSON object, or the `error` field
is absent or is an object without a truthy `message`, it falls back to the
raw error's string form and the process still exits with code 4 — but when
the `error` field is present with a non-object value, the extraction itself
raises and the process exits 1, not 4. The status-404 example with body
`\x7b"error":\x7b"message":"File not found"\x7d\x7d` produces exit code 4
and message `API error (404): File not found`. -/
theorem claim_C4 :
    command_errors (.error (.http ⟨some 404,
        some "\x7b\"error\":\x7b\"message\":\"File not found\"\x7d\x7d", "raw"⟩)) =
      ⟨4, [], ["API error (404): File not found"]⟩ ∧
    (∀ e : HttpErr, e.content = none → _extract_http_error e = .ok e.reprStr) ∧
    (∀ (e : HttpErr) (c : String), e.content = some c → json_loads c = none →
      _extract_http_error e = .ok e.reprStr) ∧
    (∀ (e : HttpErr) (c : String) (v : Json), e.content = some c →
      json_loads c = some v → (∀ fields, v ≠ .obj fields) →
      _extract_http_error e = .ok e.reprStr) ∧
    (∀ (e : HttpErr) (c : String) (fields : List (String × Json)),
      e.content = some c → json_loads c = some (.obj fields) →
      (pyDictGet fields "error" = none ∨
        ∃ efields, pyDictGet fields "error" = some (.obj efields) ∧
          (∀ m, pyDictGet efields "message" = some m → jsonTruthy m = false)) →
      _extract_http_error e = .ok e.reprStr) ∧
    (∀ e : HttpErr, (∃ m, _extract_http_error e = .ok m) →
      (command_errors (.error (.http e))).exitCode = 4) ∧
    (∀ (e : HttpErr) (c : String) (fields : List (String × Json)) (v : Json),
      e.content = some c → json_loads c = some (.obj fields) →
      pyDictGet fields "error" = some v → (∀ efields, v ≠ .obj efields) →
      _extract_http_error e = .attributeError ∧
      (command_errors (.error (.http e))).exitCode = 1) := by
  have hempty : ∀ c : String, c.data = [] → json_loads c = none := by
    intro c hc
    cases c with
    | mk data =>
      simp only at hc
      subst hc
      rfl
  refine ⟨rfl, ?_, ?_, ?_, ?_, ?_, ?_⟩
  · intro e h
    simp only [_extract_http_error, h]
  · intro e c h hj
    by_cases hc : c.data = []
    · simp [_extract_http_error, h, hc]
    · simp [_extract_http_error, h, hc, hj]
  · intro e c v h hj hv
    by_cases hc : c.data = []
    · simp [_extract_http_error, h, hc]
    · cases v with
      | obj fields => exact absurd rfl (hv fields)
      | null => simp [_extract_http_error, h, hc, hj]
      | bool b => simp [_extract_http_error, h, hc, hj]
      | num lex => simp [_extract_http_error, h, hc, hj]
      | str s => simp [_extract_http_error, h, hc, hj]
      | arr items => simp [_extract_http_error, h, hc, hj]
  · intro e c fields h hj hget
    have hc : c.data ≠ [] := by
      intro hc
      rw [hempty c hc] at hj
      exact absurd hj (by simp)
    rcases hget with hnone | ⟨efields, hef, hmsg⟩
    · simp only [_extract_http_error, h, if_neg hc, hj, hnone, Option.getD_none]
      rfl
    · simp only [_extract_http_error, h, if_neg hc, hj, hef, Option.getD_some]
      cases hm : pyDictGet efields "message" with
      | none => simp
      | some m => simp [hmsg m hm]
  · intro e ⟨m, hm⟩
    simp [command_errors, hm]
  · intro e c fields v h hj hget hv
    have hc : c.data ≠ [] := by
      intro hc
      rw [hempty c hc] at hj
      exact absurd hj (by simp)
    have hx : _extract_http_error e = .attributeError := by
      cases v with
      | obj efields => exact absurd rfl (hv efields)
      | null => simp [_extract_http_error, h, hc, hj, hget]
      | bool b => simp [_extract_http_error, h, hc, hj, hget]
      | num lex => simp [_extract_http_error, h, hc, hj, hget]
      | str s => simp [_extract_http_error, h, hc, hj, hget]
      | arr items => simp [_extract_http_error, h, hc, hj, hget]
    exact ⟨hx, by simp [command_errors, hx]⟩

/-- Witness for C4 at a body whose error object carries an empty message. -/
theorem claim_C4_witness :
    _extract_http_error ⟨some 500,
        some "\x7b\"error\":\x7b\"message\":\"\"\x7d\x7d", "raw 500"⟩ = .ok "raw 500" ∧
    (command_errors (.error (.http ⟨some 500,
        some "\x7b\"error\":\x7b\"message\":\"\"\x7d\x7d", "raw 500"⟩))).exitCode = 4 :=
  ⟨claim_C4.2.2.2.2.1 ⟨some 500, some "\x7b\"error\":\x7b\"message\":\"\"\x7d\x7d",
      "raw 500"⟩ "\x7b\"error\":\x7b\"message\":\"\"\x7d\x7d" [("error",
      Json.obj [("message", Json.str "")])] rfl (by rfl)
      (Or.inr ⟨[("message", Json.str "")], by rfl, fun m hm => by
        injection hm with hm
        subst hm
        rfl⟩),
    claim_C4.2.2.2.2.2.1 ⟨some 500, some "\x7b\"error\":\x7b\"message\":\"\"\x7d\x7d",
      "raw 500"⟩ ⟨"raw 500", claim_C4.2.2.2.2.1 _ _ [("error",
      Json.obj [("message", Json.str "")])] rfl (by rfl)
      (Or.inr ⟨[("message", Json.str "")], by rfl, fun m hm => by
        injection hm with hm
        subst hm
        rfl⟩)⟩⟩

/-- C5: for every input that does not match the canonical-ID shape,
resolution fails with InvalidInput when the parsed URL's scheme is not http
or https; and a URL whose host does not end in the service's domain family
(suffix match after ASCII lowering) never resolves — it always fails with a
failure the classifier maps to exit code 2 — for both kinds. -/
theorem claim_C5 :
    (∀ (value : String) (k : Kind) (p : UrlSplit),
      isDriveIdL (stripL value.data) = false →
      urlparseE (stripL value.data) = .ok p →
      ¬(p.scheme = "http".data ∨ p.scheme = "https".data) →
      ∃ m, _resolve_drive_id value k = .error (.validation m) ∧
        (command_errors (.error (ResolveError.validation m).toCmd)).exitCode = 2) ∧
    (∀ (value : String) (k : Kind) (p : UrlSplit),
      isDriveIdL (stripL value.data) = false →
      urlparseE (stripL value.data) = .ok p →
      endsWithL "google.com".data (p.netloc.map Char.toLower) = false →
      (¬∃ r, _resolve_drive_id value k = .ok r) ∧
      ∃ m, _resolve_drive_id value k = .error (.validation m) ∧
        (command_errors (.error (ResolveError.validation m).toCmd)).exitCode = 2) := by
  constructor
  · intro value k p hid hparse hscheme
    by_cases hraw : stripL value.data = []
    · exact ⟨"Value cannot be empty.", by simp [_resolve_drive_id, hraw], rfl⟩
    · refine ⟨"Expected a Google Drive " ++ k.label ++ " ID or link.", ?_, rfl⟩
      rw [_resolve_drive_id.eq_def]
      simp only [if_neg hraw, hid, hparse]
      rw [if_pos (show ¬(p.scheme = ['h', 't', 't', 'p'] ∨
        p.scheme = ['h', 't', 't', 'p', 's']) from hscheme)]
      simp
  · intro value k p hid hparse hhost
    by_cases hraw : stripL value.data = []
    · constructor
      · rintro ⟨r, hr⟩
        simp [_resolve_drive_id, hraw] at hr
      · exact ⟨"Value cannot be empty.", by simp [_resolve_drive_id, hraw], rfl⟩
    · by_cases hscheme : p.scheme = "http".data ∨ p.scheme = "https".data
      · have hres : _resolve_drive_id value k =
            .error (.validation ("Expected a Google Drive " ++ k.label ++ " link.")) := by
          rw [_resolve_drive_id.eq_def]
          simp only [if_neg hraw, hid, hparse]
          rw [if_neg (show ¬¬(p.scheme = ['h', 't', 't', 'p'] ∨
              p.scheme = ['h', 't', 't', 'p', 's']) from not_not_intro hscheme),
            if_pos (show ¬endsWithL ['g', 'o', 'o', 'g', 'l', 'e', '.', 'c', 'o', 'm']
              (List.map Char.toLower p.netloc) = true from by
                rw [show endsWithL ['g', 'o', 'o', 'g', 'l', 'e', '.', 'c', 'o', 'm']
                  (List.map Char.toLower p.netloc) = false from hhost]
                exact Bool.false_ne_true)]
          simp
        refine ⟨?_, ⟨_, hres, rfl⟩⟩
        rintro ⟨r, hr⟩
        rw [hres] at hr
        cases hr
      · have hres : _resolve_drive_id value k =
            .error (.validation ("Expected a Google Drive " ++ k.label ++ " ID or link.")) := by
          rw [_resolve_drive_id.eq_def]
          simp only [if_neg hraw, hid, hparse]
          rw [if_pos (show ¬(p.scheme = ['h', 't', 't', 'p'] ∨
            p.scheme = ['h', 't', 't', 'p', 's']) from hscheme)]
          simp
        refine ⟨?_, ⟨_, hres, rfl⟩⟩
        rintro ⟨r, hr⟩
        rw [hres] at hr
        cases hr

/-- Witness for C5 at a non-http scheme and at a non-Google host. -/
theorem claim_C5_witness :
    (∃ m, _resolve_drive_id "ftp://drive.google.com/drive/folders/1AbcdefGhIjKlmNop"
        Kind.folder = .error (.validation m) ∧
      (command_errors (.error (ResolveError.validation m).toCmd)).exitCode = 2) ∧
    (¬∃ r, _resolve_drive_id "https://example.com/file/d/1AbcdefGhIjKlmNop/view"
        Kind.file = .ok r) :=
  ⟨claim_C5.1 _ .folder
      ⟨"ftp".data, "drive.google.com".data, "/drive/folders/1AbcdefGhIjKlmNop".data, [], []⟩
      (by rfl) (by rfl) (by decide),
    (claim_C5.2 _ .file
      ⟨"https".data, "example.com".data, "/file/d/1AbcdefGhIjKlmNop/view".data, [], []⟩
      (by rfl) (by rfl) (by rfl)).1⟩

/-! ## Helper lemmas: substring occurrence -/

theorem startsWithL_append_self : ∀ a b : List Char, startsWithL a (a ++ b) = true
  | [], _ => rfl
  | c :: cs, b => by simp [startsWithL, startsWithL_append_self cs b]

theorem containsSub_of_startsWith {pat l : List Char} (h : startsWithL pat l = true) :
    containsSub pat l = true := by
  cases l with
  | nil => simpa [containsSub] using h
  | cons c rest => simp [containsSub, h]

theorem containsSub_of_decomp (pat : List Char) :
    ∀ x y : List Char, containsSub pat (x ++ pat ++ y) = true := by
  intro x
  induction x with
  | nil =>
    intro y
    simp only [List.nil_append]
    exact containsSub_of_startsWith (startsWithL_append_self pat y)
  | cons c x ih =>
    intro y
    have h2 := ih y
    simp only [containsSub, List.cons_append]
    simp only [List.append_eq] at h2 ⊢
    rw [h2]
    simp

/-- String append acts as list append on the character data. -/
theorem str_data_append (a b : String) : (a ++ b).data = a.data ++ b.data := by
  simp

/-- C2: for every URL input passing the scheme, host and cross-kind checks,
the resolver tries the path shapes most-specific-first (folder shape, then
file-detail shape, then generic `/d/` shape) and returns the first match;
if no path shape matches it falls back to the `id` query parameter
validated against the canonical-ID shape; and if nothing matches it fails
with InvalidInput whose message includes the original raw input value. -/
theorem claim_C2 (value : String) (k : Kind) (p : UrlSplit)
    (hraw : stripL value.data ≠ [])
    (hid : isDriveIdL (stripL value.data) = false)
    (hparse : urlparseE (stripL value.data) = .ok p)
    (hscheme : p.scheme = "http".data ∨ p.scheme = "https".data)
    (hhost : endsWithL "google.com".data (p.netloc.map Char.toLower) = true)
    (hcross1 : ¬(k = .folder ∧ containsSub "/file/".data p.path = true))
    (hcross2 : ¬(k = .file ∧ containsSub "/folders/".data p.path = true)) :
    (∀ r, searchRun drivePatFolder p.path = some r →
      _resolve_drive_id value k = .ok ⟨r⟩) ∧
    (searchRun drivePatFolder p.path = none →
      ∀ r, searchRun drivePatFileD p.path = some r →
        _resolve_drive_id value k = .ok ⟨r⟩) ∧
    (searchRun drivePatFolder p.path = none → searchRun drivePatFileD p.path = none →
      ∀ r, searchRun drivePatD p.path = some r →
        _resolve_drive_id value k = .ok ⟨r⟩) ∧
    (firstShapeMatch orderedPathShapes p.path = none →
      ∀ q, (parse_qsl p.query).find? (fun pr => decide (pr.1 = "id".data)) = some q →
        isDriveIdL q.2 = true → _resolve_drive_id value k = .ok ⟨q.2⟩) ∧
    (firstShapeMatch orderedPathShapes p.path = none →
      (∀ q, (parse_qsl p.query).find? (fun pr => decide (pr.1 = "id".data)) = some q →
        isDriveIdL q.2 = false) →
      ∃ m, _resolve_drive_id value k = .error (.validation m) ∧
        containsSub value.data m.data = true) := by
  have hstage : _resolve_drive_id value k =
      (match firstShapeMatch orderedPathShapes p.path with
        | some m => .ok ⟨m⟩
        | none =>
          match (parse_qsl p.query).find? (fun pr => decide (pr.1 = "id".data)) with
          | some q =>
            if isDriveIdL q.2 then .ok ⟨q.2⟩
            else .error (.validation
              ("Could not extract " ++ k.label ++ " ID from value: " ++ value))
          | none => .error (.validation
              ("Could not extract " ++ k.label ++ " ID from value: " ++ value))) := by
    rw [_resolve_drive_id.eq_def]
    simp only [if_neg hraw, hid, hparse]
    rw [if_neg (show ¬¬(p.scheme = ['h', 't', 't', 'p'] ∨
        p.scheme = ['h', 't', 't', 'p', 's']) from not_not_intro hscheme),
      if_neg (show ¬¬endsWithL ['g', 'o', 'o', 'g', 'l', 'e', '.', 'c', 'o', 'm']
        (List.map Char.toLower p.netloc) = true from not_not_intro hhost),
      if_neg (show ¬(k = Kind.folder ∧
        containsSub ['/', 'f', 'i', 'l', 'e', '/'] p.path = true) from hcross1),
      if_neg (show ¬(k = Kind.file ∧
        containsSub ['/', 'f', 'o', 'l', 'd', 'e', 'r', 's', '/'] p.path = true) from
        hcross2)]
    simp
  refine ⟨?_, ?_, ?_, ?_, ?_⟩
  · intro r hr
    rw [hstage]
    simp only [orderedPathShapes, firstShapeMatch, hr]
  · intro h1 r hr
    rw [hstage]
    simp only [orderedPathShapes, firstShapeMatch, h1, hr]
  · intro h1 h2 r hr
    rw [hstage]
    simp only [orderedPathShapes, firstShapeMatch, h1, h2, hr]
  · intro hnone q hq hvalid
    rw [hstage, hnone]
    simp only [hq]
    rw [if_pos hvalid]
  · intro hnone hbad
    rw [hstage, hnone]
    cases hfind : (parse_qsl p.query).find? (fun pr => decide (pr.1 = "id".data)) with
    | some q =>
      refine ⟨"Could not extract " ++ k.label ++ " ID from value: " ++ value, ?_, ?_⟩
      · simp only [hfind]
        rw [if_neg (by rw [hbad q hfind]; exact Bool.false_ne_true)]
      · rw [str_data_append]
        have := containsSub_of_decomp value.data
          ("Could not extract " ++ k.label ++ " ID from value: ").data []
        rwa [List.append_nil] at this
    | none =>
      refine ⟨"Could not extract " ++ k.label ++ " ID from value: " ++ value, ?_, ?_⟩
      · simp only [hfind]
      · rw [str_data_append]
        have := containsSub_of_decomp value.data
          ("Could not extract " ++ k.label ++ " ID from value: ").data []
        rwa [List.append_nil] at this

/-- Witness for C2 at the folder-shaped URL of the repository's tests. -/
theorem claim_C2_witness :
    _resolve_drive_id "https://drive.google.com/drive/folders/1AbcdefGhIjKlmNop"
      Kind.folder = .ok "1AbcdefGhIjKlmNop" :=
  (claim_C2 "https://drive.google.com/drive/folders/1AbcdefGhIjKlmNop" .folder
      ⟨"https".data, "drive.google.com".data,
        "/drive/folders/1AbcdefGhIjKlmNop".data, [], []⟩
      (by decide) (by rfl) (by rfl) (by decide) (by rfl) (by decide) (by decide)).1
    "1AbcdefGhIjKlmNop".data (by rfl)

/-! ## Helper lemmas: list scanning over a literal followed by an ID -/

theorem takeWhile_all_true {p : Char → Bool} :
    ∀ l : List Char, (∀ x ∈ l, p x = true) → l.takeWhile p = l
  | [], _ => rfl
  | c :: cs, h => by
    rw [List.takeWhile_cons_of_pos (h c (List.mem_cons_self c cs)),
      takeWhile_all_true cs (fun x hx => h x (List.mem_cons_of_mem c hx))]

theorem takeWhile_middle {p : Char → Bool} {c : Char} (hc : p c = false) :
    ∀ good rest : List Char, (∀ x ∈ good, p x = true) →
      (good ++ c :: rest).takeWhile p = good
  | [], rest, _ => by
    rw [List.nil_append, List.takeWhile_cons_of_neg (by rw [hc]; exact Bool.false_ne_true)]
  | g :: good, rest, h => by
    rw [List.cons_append, List.takeWhile_cons_of_pos (h g (List.mem_cons_self g good)),
      takeWhile_middle hc good rest (fun x hx => h x (List.mem_cons_of_mem g hx))]

theorem dropWhile_middle {p : Char → Bool} {c : Char} (hc : p c = false) :
    ∀ good rest : List Char, (∀ x ∈ good, p x = true) →
      (good ++ c :: rest).dropWhile p = c :: rest
  | [], rest, _ => by
    rw [List.nil_append, List.dropWhile_cons_of_neg (by rw [hc]; exact Bool.false_ne_true)]
  | g :: good, rest, h => by
    rw [List.cons_append, List.dropWhile_cons_of_pos (h g (List.mem_cons_self g good)),
      dropWhile_middle hc good rest (fun x hx => h x (List.mem_cons_of_mem g hx))]

theorem splitFirstL_none_of {sep : Char} :
    ∀ l : List Char, (∀ c ∈ l, c ≠ sep) → splitFirstL sep l = none
  | [], _ => rfl
  | c :: rest, h => by
    simp only [splitFirstL, if_neg (h c (List.mem_cons_self c rest)),
      splitFirstL_none_of rest (fun x hx => h x (List.mem_cons_of_mem c hx))]

theorem splitFirstL_append_some {sep : Char} (b : List Char) :
    ∀ a x y : List Char, splitFirstL sep a = some (x, y) →
      splitFirstL sep (a ++ b) = some (x, y ++ b) := by
  intro a
  induction a with
  | nil => intro x y h; simp [splitFirstL] at h
  | cons c rest ih =>
    intro x y h
    simp only [splitFirstL, List.cons_append, List.append_eq] at h ⊢
    by_cases hc : c = sep
    · rw [if_pos hc] at h ⊢
      injection h with h
      rw [Prod.mk.injEq] at h
      obtain ⟨hx, hy⟩ := h
      subst hx
      subst hy
      rfl
    · rw [if_neg hc] at h ⊢
      cases hr : splitFirstL sep rest with
      | none => rw [hr] at h; exact absurd h (by simp)
      | some pr =>
        obtain ⟨px, py⟩ := pr
        rw [hr] at h
        rw [ih px py hr]
        injection h with h
        rw [Prod.mk.injEq] at h
        obtain ⟨hx, hy⟩ := h
        subst hx
        subst hy
        rfl

theorem contains_eq_false_of {x : Char} (l : List Char) (h : ∀ c ∈ l, c ≠ x) :
    l.contains x = false := by
  rw [Bool.eq_false_iff]
  intro hc
  obtain ⟨c, hm, hbeq⟩ := List.contains_iff_exists_mem_beq.mp hc
  exact h c hm (beq_iff_eq.mp hbeq).symm

theorem startsWithL_decomp :
    ∀ pat l : List Char, startsWithL pat l = true → ∃ t, l = pat ++ t
  | [], l, _ => ⟨l, rfl⟩
  | p :: ps, [], h => by simp [startsWithL] at h
  | p :: ps, c :: cs, h => by
    simp only [startsWithL, Bool.and_eq_true, beq_iff_eq] at h
    obtain ⟨rfl, h2⟩ := h
    obtain ⟨t, rfl⟩ := startsWithL_decomp ps cs h2
    exact ⟨t, rfl⟩

theorem containsSub_exists {pat : List Char} :
    ∀ l, containsSub pat l = true → ∃ x y, l = x ++ pat ++ y := by
  intro l
  induction l with
  | nil =>
    intro h
    simp only [containsSub] at h
    obtain ⟨t, ht⟩ := startsWithL_decomp pat [] h
    exact ⟨[], t, by simp [ht]⟩
  | cons c rest ih =>
    intro h
    simp only [containsSub, Bool.or_eq_true] at h
    rcases h with h | h
    · obtain ⟨t, ht⟩ := startsWithL_decomp pat (c :: rest) h
      exact ⟨[], t, by simp [ht]⟩
    · obtain ⟨x, y, hxy⟩ := ih h
      exact ⟨c :: x, y, by simp [hxy]⟩

theorem containsSub_mono {u v w l : List Char}
    (h : containsSub (u ++ v ++ w) l = true) : containsSub v l = true := by
  obtain ⟨x, y, rfl⟩ := containsSub_exists l h
  have he : x ++ (u ++ v ++ w) ++ y = (x ++ u) ++ v ++ (w ++ y) := by
    simp [List.append_assoc]
  rw [he]
  exact containsSub_of_decomp v (x ++ u) (w ++ y)

theorem hereRun_startsWith {pat l r : List Char} (h : hereRun pat l = some r) :
    startsWithL pat l = true := by
  by_contra hs
  rw [Bool.not_eq_true] at hs
  unfold hereRun at h
  rw [if_neg (by rw [hs]; exact Bool.false_ne_true)] at h
  exact absurd h (by simp)

theorem searchRun_contains {pat : List Char} :
    ∀ l r, searchRun pat l = some r → containsSub pat l = true := by
  intro l
  induction l with
  | nil =>
    intro r h
    simp only [searchRun] at h
    simpa [containsSub] using hereRun_startsWith h
  | cons c rest ih =>
    intro r h
    simp only [searchRun] at h
    cases hh : hereRun pat (c :: rest) with
    | some v => simp [containsSub, hereRun_startsWith hh]
    | none =>
      rw [hh] at h
      simp [containsSub, ih r h]

theorem searchRun_none_of {pat : List Char} :
    ∀ l, containsSub pat l = false → searchRun pat l = none := by
  intro l hc
  cases hs : searchRun pat l with
  | none => rfl
  | some r =>
    rw [searchRun_contains l r hs] at hc
    exact absurd hc (by simp)

theorem searchRun_head {pat l r : List Char} (h : hereRun pat l = some r) :
    searchRun pat l = some r := by
  cases l with
  | nil => simpa [searchRun] using h
  | cons c rest => simp [searchRun, h]

theorem hereRun_at_head (pat id rest : List Char)
    (hid : ∀ c ∈ id, isDriveIdChar c = true) (hlen : 10 ≤ id.length)
    (hrest : rest = [] ∨ ∃ c r, rest = c :: r ∧ isDriveIdChar c = false) :
    hereRun pat (pat ++ (id ++ rest)) = some id := by
  unfold hereRun
  rw [if_pos (startsWithL_append_self pat (id ++ rest))]
  show (if 10 ≤ (((pat ++ (id ++ rest)).drop pat.length).takeWhile isDriveIdChar).length
    then some (((pat ++ (id ++ rest)).drop pat.length).takeWhile isDriveIdChar)
    else none) = some id
  rw [List.drop_left]
  have htake : (id ++ rest).takeWhile isDriveIdChar = id := by
    rcases hrest with rfl | ⟨c, r, rfl, hc⟩
    · rw [List.append_nil]
      exact takeWhile_all_true id hid
    · exact takeWhile_middle hc id r hid
  rw [htake, if_pos hlen]

theorem prefix_take_mem :
    ∀ p id t : List Char, startsWithL p (id ++ t) = true →
      ∀ x ∈ p.take id.length, x ∈ id
  | [], _, _, _ => by simp
  | p :: ps, [], t, h => by simp
  | p :: ps, i :: is, t, h => by
    simp only [List.cons_append, startsWithL, Bool.and_eq_true, beq_iff_eq] at h
    obtain ⟨rfl, h2⟩ := h
    intro x hx
    simp only [List.length_cons, List.take_succ_cons, List.mem_cons] at hx
    rcases hx with rfl | hx
    · exact List.mem_cons_self x is
    · exact List.mem_cons_of_mem p (prefix_take_mem ps is t h2 x hx)

theorem not_startsWith_long_into_id {p id : List Char} (t : List Char)
    (hid : ∀ c ∈ id, isDriveIdChar c = true) (hlen : p.length ≤ id.length)
    {c : Char} (hcp : c ∈ p) (hcbad : isDriveIdChar c = false) :
    startsWithL p (id ++ t) = false := by
  rw [Bool.eq_false_iff]
  intro hs
  have hmem := prefix_take_mem p id t hs c (by rwa [List.take_of_length_le hlen])
  rw [hid c hmem] at hcbad
  simp at hcbad


theorem containsSub_id_append {pat t : List Char} :
    ∀ id : List Char, (∀ c ∈ id, isDriveIdChar c = true) →
      (∃ m, pat = '/' :: m) → containsSub pat t = false →
      containsSub pat (id ++ t) = false
  | [], _, _, ht => by simpa using ht
  | c :: id, hid, hpat, ht => by
    obtain ⟨m, hp⟩ := hpat
    have hrec := containsSub_id_append id
      (fun x hx => hid x (List.mem_cons_of_mem c hx)) ⟨m, hp⟩ ht
    have hc : c ≠ '/' :=
      driveIdChar_ne '/' (hid c (List.mem_cons_self c id)) (by decide)
    subst hp
    simp only [List.cons_append, containsSub, startsWithL, hrec, Bool.or_false]
    simp [beq_iff_eq]
    exact ⟨fun e => absurd e.symm hc, hrec⟩

/-! ## Helper lemmas: composing `urlparse` on a Drive URL -/

theorem splitScheme_of_parts {url after : List Char} {c : Char} {cs : List Char}
    (hsplit : splitFirstL ':' url = some (c :: cs, after))
    (hc : c.isAlpha = true) (hcs : cs.all isSchemeChar = true) :
    splitScheme url = ((c :: cs).map Char.toLower, after) := by
  unfold splitScheme
  rw [hsplit]
  simp [hc, hcs]

theorem urlparseE_of_parts {l url scheme rest netloc rest2 : List Char}
    (hfilter : l.filter (fun c => !unsafeUrlChar c) = url)
    (hscheme : splitScheme url = (scheme, '/' :: '/' :: rest))
    (hnet1 : rest.takeWhile (fun c => !netlocStop c) = netloc)
    (hnet2 : rest.dropWhile (fun c => !netlocStop c) = rest2)
    (hbr1 : '[' ∉ netloc)
    (hbr2 : ']' ∉ netloc)
    (hfrag : splitFirstL '#' rest2 = none)
    (hquery : splitFirstL '?' rest2 = none)
    (hsemi : ';' ∉ rest2) :
    urlparseE l = .ok ⟨scheme, netloc, rest2, [], []⟩ := by
  simp [urlparseE, urlsplitE, afterNetloc, hfilter, hscheme, hnet1, hnet2, hbr1, hbr2,
    hfrag, hquery, hsemi]

theorem urlparseE_drive (t : List Char)
    (hclean : ∀ c ∈ t, unsafeUrlChar c = false ∧ c ≠ '#' ∧ c ≠ '?' ∧ c ≠ ';') :
    urlparseE ("https://drive.google.com".data ++ '/' :: t) =
      .ok ⟨"https".data, "drive.google.com".data, '/' :: t, [], []⟩ := by
  have hfilter : ("https://drive.google.com".data ++ '/' :: t).filter
      (fun c => !unsafeUrlChar c) = "https://drive.google.com".data ++ '/' :: t := by
    have h2 : List.filter (fun c => !unsafeUrlChar c) ('/' :: t) = '/' :: t := by
      rw [List.filter_eq_self]
      intro a ha
      rcases List.mem_cons.mp ha with rfl | ha
      · decide
      · rw [(hclean a ha).1]
        rfl
    rw [List.filter_append, h2]
    rfl
  have hsplit : splitFirstL ':' ("https://drive.google.com".data ++ '/' :: t) =
      some ("https".data, "//drive.google.com".data ++ '/' :: t) :=
    splitFirstL_append_some ('/' :: t) "https://drive.google.com".data _ _ (by rfl)
  have hafter : "//drive.google.com".data ++ '/' :: t =
      '/' :: '/' :: ("drive.google.com".data ++ '/' :: t) := rfl
  have hscheme : splitScheme ("https://drive.google.com".data ++ '/' :: t) =
      ("https".data, '/' :: '/' :: ("drive.google.com".data ++ '/' :: t)) := by
    have := @splitScheme_of_parts ("https://drive.google.com".data ++ '/' :: t)
      ("//drive.google.com".data ++ '/' :: t) 'h' "ttps".data
      (by rw [hsplit]) (by decide) (by decide)
    rw [this]
    rfl
  have hnet1 : ("drive.google.com".data ++ '/' :: t).takeWhile
      (fun c => !netlocStop c) = "drive.google.com".data :=
    takeWhile_middle (by decide) _ _ (by decide)
  have hnet2 : ("drive.google.com".data ++ '/' :: t).dropWhile
      (fun c => !netlocStop c) = '/' :: t :=
    dropWhile_middle (by decide) _ _ (by decide)
  have hfrag : splitFirstL '#' ('/' :: t) = none := by
    apply splitFirstL_none_of
    intro c hc
    rcases List.mem_cons.mp hc with rfl | hc
    · decide
    · exact (hclean c hc).2.1
  have hquery : splitFirstL '?' ('/' :: t) = none := by
    apply splitFirstL_none_of
    intro c hc
    rcases List.mem_cons.mp hc with rfl | hc
    · decide
    · exact (hclean c hc).2.2.1
  have hsemi : ';' ∉ ('/' :: t) := by
    intro hm
    rcases List.mem_cons.mp hm with he | hm
    · exact absurd he (by decide)
    · exact (hclean ';' hm).2.2.2 rfl
  exact urlparseE_of_parts hfilter hscheme hnet1 hnet2 (by decide) (by decide)
    hfrag hquery hsemi

/-- The resolver on an input passing the empty, fast-path, scheme and host
checks reduces to the cross-kind guard, path-shape extraction, and query
fallback. -/
theorem resolve_stage (value : String) (k : Kind) (p : UrlSplit)
    (hraw : stripL value.data ≠ [])
    (hid : isDriveIdL (stripL value.data) = false)
    (hparse : urlparseE (stripL value.data) = .ok p)
    (hscheme : p.scheme = "http".data ∨ p.scheme = "https".data)
    (hhost : endsWithL "google.com".data (p.netloc.map Char.toLower) = true) :
    _resolve_drive_id value k =
      (if k = .folder ∧ containsSub "/file/".data p.path = true then
        .error (.validation "Expected folder link/ID, but file link was provided.")
      else if k = .file ∧ containsSub "/folders/".data p.path = true then
        .error (.validation "Expected file link/ID, but folder link was provided.")
      else
        match firstShapeMatch orderedPathShapes p.path with
        | some m => .ok ⟨m⟩
        | none =>
          match (parse_qsl p.query).find? (fun pr => decide (pr.1 = "id".data)) with
          | some q =>
            if isDriveIdL q.2 then .ok ⟨q.2⟩
            else .error (.validation
              ("Could not extract " ++ k.label ++ " ID from value: " ++ value))
          | none => .error (.validation
              ("Could not extract " ++ k.label ++ " ID from value: " ++ value))) := by
  rw [_resolve_drive_id.eq_def]
  simp only [if_neg hraw, hid, hparse]
  rw [if_neg (show ¬¬(p.scheme = ['h', 't', 't', 'p'] ∨
      p.scheme = ['h', 't', 't', 'p', 's']) from not_not_intro hscheme),
    if_neg (show ¬¬endsWithL ['g', 'o', 'o', 'g', 'l', 'e', '.', 'c', 'o', 'm']
      (List.map Char.toLower p.netloc) = true from not_not_intro hhost)]
  simp

/-- Resolving a URL on the recognized host reduces to the cross-kind guard
and path-shape extraction on the URL's path (the query being empty). -/
theorem resolve_drive_url (t : List Char) (k : Kind)
    (hprops : ∀ c ∈ t, isPySpace c = false ∧ unsafeUrlChar c = false ∧
      c ≠ '#' ∧ c ≠ '?' ∧ c ≠ ';') :
    _resolve_drive_id ⟨"https://drive.google.com".data ++ '/' :: t⟩ k =
      (if k = .folder ∧ containsSub "/file/".data ('/' :: t) = true then
        .error (.validation "Expected folder link/ID, but file link was provided.")
      else if k = .file ∧ containsSub "/folders/".data ('/' :: t) = true then
        .error (.validation "Expected file link/ID, but folder link was provided.")
      else
        match firstShapeMatch orderedPathShapes ('/' :: t) with
        | some m => .ok ⟨m⟩
        | none => .error (.validation ("Could not extract " ++ k.label ++
            " ID from value: " ++ ⟨"https://drive.google.com".data ++ '/' :: t⟩))) := by
  have hstrip : stripL ("https://drive.google.com".data ++ '/' :: t) =
      "https://drive.google.com".data ++ '/' :: t := by
    apply stripL_of_no_space
    intro c hc
    rcases List.mem_append.mp hc with hc | hc
    · exact (show ∀ c ∈ "https://drive.google.com".data, isPySpace c = false by decide) c hc
    · rcases List.mem_cons.mp hc with rfl | hc
      · decide
      · exact (hprops c hc).1
  have hparse := urlparseE_drive t (fun c hc => (hprops c hc).2)
  rw [resolve_stage ⟨"https://drive.google.com".data ++ '/' :: t⟩ k
    ⟨"https".data, "drive.google.com".data, '/' :: t, [], []⟩
    (show stripL ("https://drive.google.com".data ++ '/' :: t) ≠ [] from by
      rw [hstrip]; simp)
    (show isDriveIdL (stripL ("https://drive.google.com".data ++ '/' :: t)) = false from by
      rw [hstrip]
      exact isDriveIdL_false_of_mem
        (List.mem_append_left _ (show ':' ∈ "https://drive.google.com".data by decide))
        (by decide))
    (show urlparseE (stripL ("https://drive.google.com".data ++ '/' :: t)) = .ok _ from by
      rw [hstrip]
      exact hparse)
    (Or.inr rfl)
    (show endsWithL "google.com".data
      (List.map Char.toLower "drive.google.com".data) = true by decide)]
  rfl

theorem no_folders_in_file_path (id : List Char)
    (hid : ∀ c ∈ id, isDriveIdChar c = true) (hlen : 10 ≤ id.length) :
    containsSub "/folders/".data ("/file/d/".data ++ (id ++ "/view".data)) = false := by
  have h14 : startsWithL "folders/".data (id ++ "/view".data) = false :=
    not_startsWith_long_into_id "/view".data hid (le_trans (by decide) hlen)
      (show '/' ∈ "folders/".data by decide) (by decide)
  have h15 : containsSub "/folders/".data (id ++ "/view".data) = false :=
    containsSub_id_append id hid ⟨"folders/".data, rfl⟩ (by decide)
  simp [containsSub, startsWithL, h14, h15]

theorem no_file_in_folder_path (id : List Char)
    (hid : ∀ c ∈ id, isDriveIdChar c = true) (hlen : 10 ≤ id.length) :
    containsSub "/file/".data ("/drive/folders/".data ++ id) = false := by
  have h14 : startsWithL "file/".data (id ++ ([] : List Char)) = false :=
    not_startsWith_long_into_id [] hid (le_trans (by decide) hlen)
      (show '/' ∈ "file/".data by decide) (by decide)
  have h15 : containsSub "/file/".data (id ++ ([] : List Char)) = false :=
    containsSub_id_append id hid ⟨"file/".data, rfl⟩ (by decide)
  rw [List.append_nil] at h14 h15
  simp [containsSub, startsWithL, h14, h15]

theorem folders_in_folder_path (id : List Char) :
    containsSub "/folders/".data ("/drive/folders/".data ++ id) = true := by
  have he : "/drive/folders/".data ++ id = "/drive".data ++ "/folders/".data ++ id := rfl
  rw [he]
  exact containsSub_of_decomp "/folders/".data "/drive".data id

theorem file_in_file_path (id tail2 : List Char) :
    containsSub "/file/".data ("/file/d/".data ++ (id ++ tail2)) = true := by
  have he : "/file/d/".data ++ (id ++ tail2) =
      [] ++ "/file/".data ++ ("d/".data ++ (id ++ tail2)) := rfl
  rw [he]
  exact containsSub_of_decomp "/file/".data [] ("d/".data ++ (id ++ tail2))

/-- The folder path shape matches first on a folder-shaped path. -/
theorem firstShapeMatch_folder_path (id : List Char)
    (hid : ∀ c ∈ id, isDriveIdChar c = true) (hlen : 10 ≤ id.length) :
    firstShapeMatch orderedPathShapes ("/drive/folders/".data ++ id) = some id := by
  have h1 : searchRun drivePatFolder ("/drive/folders/".data ++ id) = some id := by
    apply searchRun_head
    have he : "/drive/folders/".data ++ id = drivePatFolder ++ (id ++ []) := by
      rw [List.append_nil]
      rfl
    rw [he]
    exact hereRun_at_head drivePatFolder id [] hid hlen (Or.inl rfl)
  simp only [orderedPathShapes, firstShapeMatch, h1]

/-- The file-detail shape matches (and the folder shape does not) on a
file-shaped path. -/
theorem firstShapeMatch_file_path (id : List Char)
    (hid : ∀ c ∈ id, isDriveIdChar c = true) (hlen : 10 ≤ id.length) :
    firstShapeMatch orderedPathShapes ("/file/d/".data ++ (id ++ "/view".data)) =
      some id := by
  have h0 : containsSub drivePatFolder ("/file/d/".data ++ (id ++ "/view".data)) = false := by
    rw [Bool.eq_false_iff]
    intro hcont
    have hmono : containsSub "/folders/".data
        ("/file/d/".data ++ (id ++ "/view".data)) = true := by
      have he : drivePatFolder = "/drive".data ++ "/folders/".data ++ ([] : List Char) := rfl
      rw [he] at hcont
      exact containsSub_mono hcont
    rw [no_folders_in_file_path id hid hlen] at hmono
    exact absurd hmono (by simp)
  have h1 : searchRun drivePatFolder ("/file/d/".data ++ (id ++ "/view".data)) = none :=
    searchRun_none_of _ h0
  have h2 : searchRun drivePatFileD ("/file/d/".data ++ (id ++ "/view".data)) = some id := by
    apply searchRun_head
    have he : "/file/d/".data ++ (id ++ "/view".data) =
        drivePatFileD ++ (id ++ "/view".data) := rfl
    rw [he]
    exact hereRun_at_head drivePatFileD id "/view".data hid hlen
      (Or.inr ⟨'/', "view".data, rfl, by decide⟩)
  simp only [orderedPathShapes, firstShapeMatch, h1, h2]

/-- C3: for every canonical ID embedded in a recognized folder-shaped URL
and a recognized file-shaped URL, resolving the folder URL as a folder and
the file URL as a file both return that ID, while resolving the folder URL
as a file and the file URL as a folder both fail with InvalidInput whose
message names the kind mismatch. -/
theorem claim_C3 (id : String) (h : isDriveId id = true) :
    resolve_folder_id (some (folder_url id)) = .ok id ∧
    resolve_file_id (file_url id) = .ok id ∧
    resolve_file_id (folder_url id) =
      .error (.validation "Expected file link/ID, but folder link was provided.") ∧
    resolve_folder_id (some (file_url id)) =
      .error (.validation "Expected folder link/ID, but file link was provided.") := by
  have hid : ∀ c ∈ id.data, isDriveIdChar c = true := isDriveIdL_all h
  have hlen : 10 ≤ id.data.length := isDriveIdL_len h
  have hidprops : ∀ c ∈ id.data, isPySpace c = false ∧ unsafeUrlChar c = false ∧
      c ≠ '#' ∧ c ≠ '?' ∧ c ≠ ';' := by
    intro c hc
    have hcd := hid c hc
    exact ⟨driveIdChar_not_pySpace hcd, driveIdChar_not_unsafe hcd,
      driveIdChar_ne '#' hcd (by decide), driveIdChar_ne '?' hcd (by decide),
      driveIdChar_ne ';' hcd (by decide)⟩
  have hpropsF : ∀ c ∈ "drive/folders/".data ++ id.data,
      isPySpace c = false ∧ unsafeUrlChar c = false ∧ c ≠ '#' ∧ c ≠ '?' ∧ c ≠ ';' := by
    intro c hc
    rcases List.mem_append.mp hc with hc | hc
    · exact (show ∀ c ∈ "drive/folders/".data, isPySpace c = false ∧
        unsafeUrlChar c = false ∧ c ≠ '#' ∧ c ≠ '?' ∧ c ≠ ';' by decide) c hc
    · exact hidprops c hc
  have hpropsD : ∀ c ∈ "file/d/".data ++ (id.data ++ "/view".data),
      isPySpace c = false ∧ unsafeUrlChar c = false ∧ c ≠ '#' ∧ c ≠ '?' ∧ c ≠ ';' := by
    intro c hc
    rcases List.mem_append.mp hc with hc | hc
    · exact (show ∀ c ∈ "file/d/".data, isPySpace c = false ∧
        unsafeUrlChar c = false ∧ c ≠ '#' ∧ c ≠ '?' ∧ c ≠ ';' by decide) c hc
    · rcases List.mem_append.mp hc with hc | hc
      · exact hidprops c hc
      · exact (show ∀ c ∈ "/view".data, isPySpace c = false ∧
          unsafeUrlChar c = false ∧ c ≠ '#' ∧ c ≠ '?' ∧ c ≠ ';' by decide) c hc
  have eF : ('/' :: ("drive/folders/".data ++ id.data)) =
      "/drive/folders/".data ++ id.data := rfl
  have eD : ('/' :: ("file/d/".data ++ (id.data ++ "/view".data))) =
      "/file/d/".data ++ (id.data ++ "/view".data) := rfl
  refine ⟨?_, ?_, ?_, ?_⟩
  · show _resolve_drive_id
      ⟨"https://drive.google.com".data ++ '/' :: ("drive/folders/".data ++ id.data)⟩
      Kind.folder = .ok id
    rw [resolve_drive_url _ .folder hpropsF, eF]
    have hnf := no_file_in_folder_path id.data hid hlen
    rw [if_neg (show ¬(Kind.folder = Kind.folder ∧
        containsSub "/file/".data ("/drive/folders/".data ++ id.data) = true) from
        fun hand => by rw [hnf] at hand; exact Bool.false_ne_true hand.2),
      if_neg (by simp)]
    rw [firstShapeMatch_folder_path id.data hid hlen]
  · show _resolve_drive_id
      ⟨"https://drive.google.com".data ++
        '/' :: ("file/d/".data ++ (id.data ++ "/view".data))⟩ Kind.file = .ok id
    rw [resolve_drive_url _ .file hpropsD, eD]
    have hnd := no_folders_in_file_path id.data hid hlen
    rw [if_neg (by simp),
      if_neg (show ¬(Kind.file = Kind.file ∧ containsSub "/folders/".data
          ("/file/d/".data ++ (id.data ++ "/view".data)) = true) from
        fun hand => by rw [hnd] at hand; exact Bool.false_ne_true hand.2)]
    rw [firstShapeMatch_file_path id.data hid hlen]
  · show _resolve_drive_id
      ⟨"https://drive.google.com".data ++ '/' :: ("drive/folders/".data ++ id.data)⟩
      Kind.file =
      .error (.validation "Expected file link/ID, but folder link was provided.")
    rw [resolve_drive_url _ .file hpropsF, eF]
    rw [if_neg (by simp), if_pos ⟨rfl, folders_in_folder_path id.data⟩]
  · show _resolve_drive_id
      ⟨"https://drive.google.com".data ++
        '/' :: ("file/d/".data ++ (id.data ++ "/view".data))⟩ Kind.folder =
      .error (.validation "Expected folder link/ID, but file link was provided.")
    rw [resolve_drive_url _ .folder hpropsD, eD]
    rw [if_pos ⟨rfl, file_in_file_path id.data "/view".data⟩]

/-- Witness for C3 at the ID used throughout the repository's tests. -/
theorem claim_C3_witness :
    resolve_folder_id (some (folder_url "1AbcdefGhIjKlmNop")) = .ok "1AbcdefGhIjKlmNop" ∧
    resolve_file_id (file_url "1AbcdefGhIjKlmNop") = .ok "1AbcdefGhIjKlmNop" ∧
    resolve_file_id (folder_url "1AbcdefGhIjKlmNop") =
      .error (.validation "Expected file link/ID, but folder link was provided.") ∧
    resolve_folder_id (some (file_url "1AbcdefGhIjKlmNop")) =
      .error (.validation "Expected folder link/ID, but file link was provided.") :=
  claim_C3 "1AbcdefGhIjKlmNop" (by decide)

end Gdrive
